import Mathlib

/-! The SimpleSwapper deploy script.

A shallow embedding of `packages/hardhat/deploy/00-simpleSwapper.js`:

    module.exports = async ({ getNamedAccounts, deployments }) => {
      const { deploy } = deployments;
      const { deployer } = await getNamedAccounts();
      await deploy("SimpleSwapper", {
        from: deployer,
        args: [0x1f98431c8ad98523631ae4a59f267346ea31f984],
        log: true,
      });
    };
    module.exports.tags = ["SimpleSwapper"];

The context is an object whose two properties may hold anything: a function,
or plain data that cannot be called (`undefined` when the property is
missing). A function is external and is modelled by what a call of it does
(throw, or hand back something whose `await` fulfils, rejects or never
settles). The script is a state-passing function over an effect trace that
records every call, every suspension (`await` entered) and every resumption
(`await` left).
-/

set_option maxRecDepth 100000

namespace SimpleSwapper

/-! ## JavaScript values -/

/-- Plain JavaScript data: `undefined`, `null`, booleans, integer-valued
Numbers, strings, arrays and objects with own data properties (in
insertion order). `typeError` is a `TypeError` object raised by the engine. -/
inductive Value where
  | undefined
  | null
  | bool (b : Bool)
  | num (n : Int)
  | str (s : String)
  | arr (items : List Value)
  | obj (fields : List (String × Value))
  | typeError

/-- Own-property lookup in a field list: the last write of a key wins in an
object literal, and the model keeps one entry per key, so the first match is
the entry. -/
def lookupField (key : String) : List (String × Value) → Option Value
  | [] => none
  | (k, v) :: rest => if k = key then some v else lookupField key rest

/-- Property read `v.key`, as done by the destructuring `const { key } = v`:
`none` is the `TypeError` thrown for `undefined` and `null`; a missing
property reads as `undefined`; the other values of the model have no
property of a name this script reads. -/
def Value.getProperty (v : Value) (key : String) : Option Value :=
  match v with
  | .undefined => none
  | .null => none
  | .obj fields => some ((lookupField key fields).getD .undefined)
  | _ => some .undefined

/-- The names of the own properties of an object, in order. -/
def Value.keys : Value → List String
  | .obj fields => fields.map Prod.fst
  | _ => []

/-! ## Number literals -/

/-- The number of halvings that bring `n` below `2^53`: the exponent of the
unit in the last place of the binary64 nearest to `n`. -/
def ulpExponent : Nat → Nat → Nat
  | 0, _ => 0
  | fuel + 1, n => if n < 2 ^ 53 then 0 else ulpExponent fuel (n / 2) + 1

/-- The value of a JavaScript integer literal of mathematical value `n`
(below `2^1024`): `n` rounded to the nearest IEEE-754 binary64, ties to
the even significand. The result is again an integer. -/
def roundToBinary64 (n : Nat) : Nat :=
  let s := ulpExponent n n
  let q := n / 2 ^ s
  let r := n % 2 ^ s
  let up := 2 * r > 2 ^ s ∨ (2 * r = 2 ^ s ∧ q % 2 = 1)
  (if up then q + 1 else q) * 2 ^ s

/-- The hexadecimal literal of line 22 as written, before evaluation. -/
def routerLiteralText : Nat := 0x1f98431c8ad98523631ae4a59f267346ea31f984

/-- The Number that the literal of line 22 evaluates to. -/
def routerLiteral : Nat := roundToBinary64 routerLiteralText

/-! ## The context and the effect trace -/

/-- What one call of an external function does, seen from an `await` of its
result. -/
inductive Behaviour where
  /-- the call itself throws `e`, synchronously -/
  | throws (e : Value)
  /-- the call returns `v`, or a promise that fulfils with `v` -/
  | fulfils (v : Value)
  /-- the call returns a promise that rejects with `e` -/
  | rejects (e : Value)
  /-- the call returns a promise that never settles -/
  | pending

/-- An external JavaScript function: its behaviour on a list of positional
arguments. The script calls each function at most once in a run, so a
dependence of the behaviour on earlier calls would add nothing. -/
abbrev ExternalFunction := List Value → Behaviour

/-- What a name that the script goes on to call may hold: a function, or
plain data, which is not callable. -/
inductive Member where
  | function (f : ExternalFunction)
  | plain (v : Value)

/-- The behaviour of the call `m(...args)`, when `m` is callable. -/
def Member.call : Member → List Value → Option Behaviour
  | .function f, args => some (f args)
  | .plain _, _ => none

/-- The `deployments` property of the context: an object that exposes a
function `deploy`, or plain data (`undefined` when the context has no such
property). -/
inductive Deployments where
  | exposing (deploy : ExternalFunction)
  | plain (v : Value)

/-- The read `deployments.deploy`; `none` is the `TypeError` thrown when
`deployments` is `undefined` or `null`. -/
def Deployments.deploy : Deployments → Option Member
  | .exposing f => some (.function f)
  | .plain v => (v.getProperty "deploy").map Member.plain

/-- The context object handed to the task; the parameter pattern of line 13
reads these two properties of it, and a property the object lacks reads as
plain `undefined`. -/
structure Context where
  getNamedAccounts : Member
  deployments : Deployments

/-- The behaviour of the call `deployments.deploy(...args)`, when
`deployments` can be read and its `deploy` is callable. -/
def Context.deployCall (ctx : Context) (args : List Value) : Option Behaviour :=
  match ctx.deployments.deploy with
  | some m => m.call args
  | none => none

/-- The two external functions the script can reach. -/
inductive Callee where
  | getNamedAccounts
  | deploy
  deriving DecidableEq, Repr

/-- One entry of the effect trace. -/
inductive Event where
  /-- the external function was called with these positional arguments -/
  | called (f : Callee) (args : List Value)
  /-- the task suspended at an `await` of the result of that call -/
  | suspended (f : Callee)
  /-- the awaited result settled and the task went on -/
  | resumed (f : Callee)

/-- The effect trace, oldest event first. -/
abbrev Trace := List Event

/-- How the evaluation of a piece of the body ends. -/
inductive Outcome (α : Type) where
  /-- normal completion with a value -/
  | normal (a : α)
  /-- abrupt completion: `e` was thrown -/
  | thrown (e : Value)
  /-- suspended at an `await` that never resumes -/
  | stuck

/-- A piece of the body of the async function: it extends the trace and ends
in an outcome. -/
def Async (α : Type) : Type := Trace → Trace × Outcome α

/-- Sequencing of statements: what follows runs only after a normal
completion; a throw or a suspension that never ends skips it. -/
def Async.bind {α β : Type} (m : Async α) (k : α → Async β) : Async β :=
  fun t =>
    match m t with
    | (t1, .normal a) => k a t1
    | (t1, .thrown e) => (t1, .thrown e)
    | (t1, .stuck) => (t1, .stuck)

instance : Monad Async where
  pure a := fun t => (t, .normal a)
  bind := Async.bind

/-- The expression `await f(...args)`. Calling what is not a function throws
a `TypeError` and records nothing. Otherwise the call is recorded; when it
throws, the throw goes on without a suspension; otherwise the task suspends
on the result, and resumes with the fulfilment value or with the rejection
thrown, or never. -/
def awaitCall (name : Callee) (f : Member) (args : List Value) : Async Value :=
  fun t =>
    match f with
    | .plain _ => (t, .thrown .typeError)
    | .function g =>
      let t1 := t ++ [Event.called name args]
      match g args with
      | .throws e => (t1, .thrown e)
      | .fulfils v => (t1 ++ [Event.suspended name, Event.resumed name], .normal v)
      | .rejects e => (t1 ++ [Event.suspended name, Event.resumed name], .thrown e)
      | .pending => (t1 ++ [Event.suspended name], .stuck)

/-- The destructuring `const { key } = v` of plain data. -/
def destructure (v : Value) (key : String) : Async Value :=
  fun t =>
    match v.getProperty key with
    | some x => (t, .normal x)
    | none => (t, .thrown .typeError)

/-- The destructuring `const { deploy } = deployments` of line 14. -/
def destructureDeploy (deployments : Deployments) : Async Member :=
  fun t =>
    match deployments.deploy with
    | some m => (t, .normal m)
    | none => (t, .thrown .typeError)

/-! ## The script -/

/-- The body of the async arrow function of lines 13 to 55. -/
def body (ctx : Context) : Async Unit := do
  let deploy ← destructureDeploy ctx.deployments
  let accounts ← awaitCall .getNamedAccounts ctx.getNamedAccounts []
  let deployer ← destructure accounts "deployer"
  let _ ← awaitCall .deploy deploy
    [.str "SimpleSwapper",
     .obj [("from", deployer), ("args", .arr [.num routerLiteral]), ("log", .bool true)]]
  pure ()

/-- The state of the promise an async function returns. -/
inductive Completion where
  | fulfilled (v : Value)
  | rejected (e : Value)
  | pending

/-- A finished run: the effect trace and the promise of the task. -/
structure Run where
  trace : Trace
  completion : Completion

/-- The exported task, `module.exports`: the body runs from an empty trace;
the body has no `return`, so a normal completion fulfils the promise with
`undefined`, and a throw rejects it with what was thrown. -/
def task (ctx : Context) : Run :=
  match body ctx [] with
  | (t, .normal ()) => ⟨t, .fulfilled .undefined⟩
  | (t, .thrown e) => ⟨t, .rejected e⟩
  | (t, .stuck) => ⟨t, .pending⟩

/-- The exported tag list, `module.exports.tags` (line 61). -/
def tags : List String := ["SimpleSwapper"]

/-! ## Reading a trace -/

/-- The argument lists of the recorded calls of `f`, oldest first. -/
def callsOf (f : Callee) : Trace → List (List Value)
  | [] => []
  | .called g args :: rest => if g = f then args :: callsOf f rest else callsOf f rest
  | _ :: rest => callsOf f rest

/-- The recorded calls of `deploy`: what a recording mock has seen. -/
def deployCalls (t : Trace) : List (List Value) := callsOf .deploy t

/-- The external operations the task suspended on, in order. -/
def awaited : Trace → List Callee
  | [] => []
  | .suspended f :: rest => f :: awaited rest
  | _ :: rest => awaited rest

/-! ## Example contexts -/

/-- A context whose account resolution fulfils with a record that names a
deployer and whose `deploy` fulfils with `null` on every call. -/
def plainContext : Context :=
  { getNamedAccounts := .function (fun _ => .fulfils (.obj [("deployer", .str "0xabc")])),
    deployments := .exposing (fun _ => .fulfils .null) }

/-- The one call of `deploy` that the task makes in `plainContext`. -/
def plainContextCall : List Value :=
  [.str "SimpleSwapper",
   .obj [("from", .str "0xabc"), ("args", .arr [.num routerLiteral]), ("log", .bool true)]]

/-- A context whose account resolution fulfils with `undefined`, as the mock
`async () => {}` does, and whose `deploy` fulfils on every call. -/
def emptyAccountsContext : Context :=
  { getNamedAccounts := .function (fun _ => .fulfils .undefined),
    deployments := .exposing (fun _ => .fulfils .undefined) }

/-- A context whose `deploy` rejects with the string "boom" on every call. -/
def rejectingContext : Context :=
  { getNamedAccounts := .function (fun _ => .fulfils (.obj [("deployer", .str "0xabc")])),
    deployments := .exposing (fun _ => .rejects (.str "boom")) }

/-- A context with a working `getNamedAccounts` and no `deployments`
property. -/
def noDeploymentsContext : Context :=
  { getNamedAccounts := .function (fun _ => .fulfils (.obj [("deployer", .str "0xabc")])),
    deployments := .plain .undefined }

/-- A context whose `getNamedAccounts` throws the string "boom". -/
def throwingAccountsContext : Context :=
  { getNamedAccounts := .function (fun _ => .throws (.str "boom")),
    deployments := .exposing (fun _ => .fulfils .null) }

/-! ## The runs of the task, case by case -/

/-- An integer below `2^53` is a binary64 already: its literal is exact. -/
theorem roundToBinary64_of_lt (n : Nat) (h : n < 2 ^ 53) : roundToBinary64 n = n := by
  have hs : ulpExponent n n = 0 := by
    cases n with
    | zero => rfl
    | succ k =>
      simp only [ulpExponent]
      rw [if_pos h]
  simp [roundToBinary64, hs, Nat.mod_one]

/-- Reading a property throws only on `undefined` and `null`. -/
theorem getProperty_of_not_nullish (v : Value) (key : String)
    (hu : v ≠ .undefined) (hn : v ≠ .null) : ∃ d, v.getProperty key = some d := by
  cases v <;> simp [Value.getProperty] at *

/-- Line 14 throws only when `deployments` is `undefined` or `null`. -/
theorem deploy_read_of_not_nullish (ds : Deployments)
    (hu : ds ≠ .plain .undefined) (hn : ds ≠ .plain .null) : ∃ m, ds.deploy = some m := by
  cases ds with
  | exposing f => exact ⟨_, rfl⟩
  | plain v =>
    obtain ⟨x, hx⟩ := getProperty_of_not_nullish v "deploy"
      (fun h => hu (by rw [h])) (fun h => hn (by rw [h]))
    exact ⟨.plain x, by simp [Deployments.deploy, hx]⟩

/-- A callable `deploy` comes from a `deployments` that exposes it. -/
theorem exposing_of_deploy_function (ds : Deployments) (f : ExternalFunction)
    (h : ds.deploy = some (.function f)) : ds = .exposing f := by
  cases ds with
  | exposing g =>
    simp only [Deployments.deploy, Option.some.injEq, Member.function.injEq] at h
    rw [h]
  | plain v =>
    cases hv : v.getProperty "deploy" <;> simp [Deployments.deploy, hv] at h

theorem task_no_deployments (ctx : Context) (hd : ctx.deployments.deploy = none) :
    task ctx = ⟨[], .rejected .typeError⟩ := by
  simp [task, body, bind, Async.bind, destructureDeploy, hd]

theorem task_accounts_not_callable (ctx : Context) (m : Member) (x : Value)
    (hd : ctx.deployments.deploy = some m) (hg : ctx.getNamedAccounts = .plain x) :
    task ctx = ⟨[], .rejected .typeError⟩ := by
  simp [task, body, bind, Async.bind, destructureDeploy, awaitCall, hd, hg]

theorem task_accounts_throws (ctx : Context) (m : Member) (g : ExternalFunction) (e : Value)
    (hd : ctx.deployments.deploy = some m) (hg : ctx.getNamedAccounts = .function g)
    (h : g [] = .throws e) :
    task ctx = ⟨[.called .getNamedAccounts []], .rejected e⟩ := by
  simp [task, body, bind, Async.bind, destructureDeploy, awaitCall, hd, hg, h]

theorem task_accounts_rejects (ctx : Context) (m : Member) (g : ExternalFunction) (e : Value)
    (hd : ctx.deployments.deploy = some m) (hg : ctx.getNamedAccounts = .function g)
    (h : g [] = .rejects e) :
    task ctx = ⟨[.called .getNamedAccounts [], .suspended .getNamedAccounts,
      .resumed .getNamedAccounts], .rejected e⟩ := by
  simp [task, body, bind, Async.bind, destructureDeploy, awaitCall, hd, hg, h]

theorem task_accounts_pending (ctx : Context) (m : Member) (g : ExternalFunction)
    (hd : ctx.deployments.deploy = some m) (hg : ctx.getNamedAccounts = .function g)
    (h : g [] = .pending) :
    task ctx = ⟨[.called .getNamedAccounts [], .suspended .getNamedAccounts], .pending⟩ := by
  simp [task, body, bind, Async.bind, destructureDeploy, awaitCall, hd, hg, h]

theorem task_accounts_nullish (ctx : Context) (m : Member) (g : ExternalFunction) (a : Value)
    (hd : ctx.deployments.deploy = some m) (hg : ctx.getNamedAccounts = .function g)
    (h : g [] = .fulfils a) (hp : a.getProperty "deployer" = none) :
    task ctx = ⟨[.called .getNamedAccounts [], .suspended .getNamedAccounts,
      .resumed .getNamedAccounts], .rejected .typeError⟩ := by
  simp [task, body, bind, Async.bind, destructureDeploy, awaitCall, destructure, hd, hg, h, hp]

theorem task_deploy_not_callable (ctx : Context) (x : Value) (g : ExternalFunction)
    (a d : Value)
    (hd : ctx.deployments.deploy = some (.plain x)) (hg : ctx.getNamedAccounts = .function g)
    (h : g [] = .fulfils a) (hp : a.getProperty "deployer" = some d) :
    task ctx = ⟨[.called .getNamedAccounts [], .suspended .getNamedAccounts,
      .resumed .getNamedAccounts], .rejected .typeError⟩ := by
  simp [task, body, bind, Async.bind, destructureDeploy, awaitCall, destructure, hd, hg, h, hp]

theorem task_deploy_throws (ctx : Context) (f g : ExternalFunction) (a d e : Value)
    (hd : ctx.deployments.deploy = some (.function f))
    (hg : ctx.getNamedAccounts = .function g)
    (h : g [] = .fulfils a) (hp : a.getProperty "deployer" = some d)
    (hf : f [.str "SimpleSwapper",
      .obj [("from", d), ("args", .arr [.num routerLiteral]), ("log", .bool true)]] = .throws e) :
    task ctx = ⟨[.called .getNamedAccounts [], .suspended .getNamedAccounts,
      .resumed .getNamedAccounts,
      .called .deploy [.str "SimpleSwapper",
      .obj [("from", d), ("args", .arr [.num routerLiteral]), ("log", .bool true)]]],
      .rejected e⟩ := by
  simp [task, body, bind, Async.bind, destructureDeploy, awaitCall, destructure, hd, hg, h, hp,
    hf]

theorem task_deploy_rejects (ctx : Context) (f g : ExternalFunction) (a d e : Value)
    (hd : ctx.deployments.deploy = some (.function f))
    (hg : ctx.getNamedAccounts = .function g)
    (h : g [] = .fulfils a) (hp : a.getProperty "deployer" = some d)
    (hf : f [.str "SimpleSwapper",
      .obj [("from", d), ("args", .arr [.num routerLiteral]), ("log", .bool true)]] = .rejects e) :
    task ctx = ⟨[.called .getNamedAccounts [], .suspended .getNamedAccounts,
      .resumed .getNamedAccounts,
      .called .deploy [.str "SimpleSwapper",
      .obj [("from", d), ("args", .arr [.num routerLiteral]), ("log", .bool true)]],
      .suspended .deploy, .resumed .deploy],
      .rejected e⟩ := by
  simp [task, body, bind, Async.bind, destructureDeploy, awaitCall, destructure, hd, hg, h, hp,
    hf]

theorem task_deploy_pending (ctx : Context) (f g : ExternalFunction) (a d : Value)
    (hd : ctx.deployments.deploy = some (.function f))
    (hg : ctx.getNamedAccounts = .function g)
    (h : g [] = .fulfils a) (hp : a.getProperty "deployer" = some d)
    (hf : f [.str "SimpleSwapper",
      .obj [("from", d), ("args", .arr [.num routerLiteral]), ("log", .bool true)]] = .pending) :
    task ctx = ⟨[.called .getNamedAccounts [], .suspended .getNamedAccounts,
      .resumed .getNamedAccounts,
      .called .deploy [.str "SimpleSwapper",
      .obj [("from", d), ("args", .arr [.num routerLiteral]), ("log", .bool true)]],
      .suspended .deploy],
      .pending⟩ := by
  simp [task, body, bind, Async.bind, destructureDeploy, awaitCall, destructure, hd, hg, h, hp,
    hf]

theorem task_deploy_fulfils (ctx : Context) (f g : ExternalFunction) (a d w : Value)
    (hd : ctx.deployments.deploy = some (.function f))
    (hg : ctx.getNamedAccounts = .function g)
    (h : g [] = .fulfils a) (hp : a.getProperty "deployer" = some d)
    (hf : f [.str "SimpleSwapper",
      .obj [("from", d), ("args", .arr [.num routerLiteral]), ("log", .bool true)]] = .fulfils w) :
    task ctx = ⟨[.called .getNamedAccounts [], .suspended .getNamedAccounts,
      .resumed .getNamedAccounts,
      .called .deploy [.str "SimpleSwapper",
      .obj [("from", d), ("args", .arr [.num routerLiteral]), ("log", .bool true)]],
      .suspended .deploy, .resumed .deploy],
      .fulfilled .undefined⟩ := by
  simp [task, body, bind, Async.bind, destructureDeploy, awaitCall, destructure, hd, hg, h, hp,
    hf, pure]

/-- Every run of the task has one of eleven shapes, by what the context holds,
what the two external calls do and whether `deployer` can be read. -/
theorem task_shape (ctx : Context) :
    (ctx.deployments.deploy = none ∧ task ctx = ⟨[], .rejected .typeError⟩) ∨
    (∃ x, ctx.getNamedAccounts = .plain x ∧ task ctx = ⟨[], .rejected .typeError⟩) ∨
    (∃ g e, ctx.getNamedAccounts = .function g ∧ g [] = .throws e ∧
      task ctx = ⟨[.called .getNamedAccounts []], .rejected e⟩) ∨
    (∃ g e, ctx.getNamedAccounts = .function g ∧ g [] = .rejects e ∧
      task ctx = ⟨[.called .getNamedAccounts [], .suspended .getNamedAccounts,
        .resumed .getNamedAccounts], .rejected e⟩) ∨
    (∃ g, ctx.getNamedAccounts = .function g ∧ g [] = .pending ∧
      task ctx = ⟨[.called .getNamedAccounts [], .suspended .getNamedAccounts], .pending⟩) ∨
    (∃ g a, ctx.getNamedAccounts = .function g ∧ g [] = .fulfils a ∧
      a.getProperty "deployer" = none ∧
      task ctx = ⟨[.called .getNamedAccounts [], .suspended .getNamedAccounts,
        .resumed .getNamedAccounts], .rejected .typeError⟩) ∨
    (∃ g a x, ctx.getNamedAccounts = .function g ∧ g [] = .fulfils a ∧
      ctx.deployments.deploy = some (.plain x) ∧
      task ctx = ⟨[.called .getNamedAccounts [], .suspended .getNamedAccounts,
        .resumed .getNamedAccounts], .rejected .typeError⟩) ∨
    (∃ f g a d e, ctx.deployments = .exposing f ∧ ctx.getNamedAccounts = .function g ∧
      g [] = .fulfils a ∧ a.getProperty "deployer" = some d ∧
      f [.str "SimpleSwapper",
        .obj [("from", d), ("args", .arr [.num routerLiteral]), ("log", .bool true)]] = .throws e ∧
      task ctx = ⟨[.called .getNamedAccounts [], .suspended .getNamedAccounts,
        .resumed .getNamedAccounts,
        .called .deploy [.str "SimpleSwapper",
        .obj [("from", d), ("args", .arr [.num routerLiteral]), ("log", .bool true)]]],
        .rejected e⟩) ∨
    (∃ f g a d e, ctx.deployments = .exposing f ∧ ctx.getNamedAccounts = .function g ∧
      g [] = .fulfils a ∧ a.getProperty "deployer" = some d ∧
      f [.str "SimpleSwapper",
        .obj [("from", d), ("args", .arr [.num routerLiteral]), ("log", .bool true)]] = .rejects e ∧
      task ctx = ⟨[.called .getNamedAccounts [], .suspended .getNamedAccounts,
        .resumed .getNamedAccounts,
        .called .deploy [.str "SimpleSwapper",
        .obj [("from", d), ("args", .arr [.num routerLiteral]), ("log", .bool true)]],
        .suspended .deploy, .resumed .deploy],
        .rejected e⟩) ∨
    (∃ f g a d, ctx.deployments = .exposing f ∧ ctx.getNamedAccounts = .function g ∧
      g [] = .fulfils a ∧ a.getProperty "deployer" = some d ∧
      f [.str "SimpleSwapper",
        .obj [("from", d), ("args", .arr [.num routerLiteral]), ("log", .bool true)]] = .pending ∧
      task ctx = ⟨[.called .getNamedAccounts [], .suspended .getNamedAccounts,
        .resumed .getNamedAccounts,
        .called .deploy [.str "SimpleSwapper",
        .obj [("from", d), ("args", .arr [.num routerLiteral]), ("log", .bool true)]],
        .suspended .deploy],
        .pending⟩) ∨
    (∃ f g a d w, ctx.deployments = .exposing f ∧ ctx.getNamedAccounts = .function g ∧
      g [] = .fulfils a ∧ a.getProperty "deployer" = some d ∧
      f [.str "SimpleSwapper",
        .obj [("from", d), ("args", .arr [.num routerLiteral]), ("log", .bool true)]] = .fulfils w ∧
      task ctx = ⟨[.called .getNamedAccounts [], .suspended .getNamedAccounts,
        .resumed .getNamedAccounts,
        .called .deploy [.str "SimpleSwapper",
        .obj [("from", d), ("args", .arr [.num routerLiteral]), ("log", .bool true)]],
        .suspended .deploy, .resumed .deploy],
        .fulfilled .undefined⟩) := by
  cases hd : ctx.deployments.deploy with
  | none => exact Or.inl ⟨rfl, task_no_deployments ctx hd⟩
  | some m =>
    right
    cases hg : ctx.getNamedAccounts with
    | plain x => exact Or.inl ⟨x, rfl, task_accounts_not_callable ctx m x hd hg⟩
    | function g =>
      right
      cases h : g [] with
      | throws e => exact Or.inl ⟨g, e, rfl, h, task_accounts_throws ctx m g e hd hg h⟩
      | rejects e =>
        exact Or.inr (Or.inl ⟨g, e, rfl, h, task_accounts_rejects ctx m g e hd hg h⟩)
      | pending =>
        exact Or.inr (Or.inr (Or.inl ⟨g, rfl, h, task_accounts_pending ctx m g hd hg h⟩))
      | fulfils a =>
        right; right; right
        cases hp : a.getProperty "deployer" with
        | none => exact Or.inl ⟨g, a, rfl, h, hp, task_accounts_nullish ctx m g a hd hg h hp⟩
        | some d =>
          right
          cases m with
          | plain x =>
            exact Or.inl ⟨g, a, x, rfl, h, rfl, task_deploy_not_callable ctx x g a d hd hg h hp⟩
          | function f =>
            right
            have hx := exposing_of_deploy_function ctx.deployments f hd
            cases hf : f [.str "SimpleSwapper",
        .obj [("from", d), ("args", .arr [.num routerLiteral]), ("log", .bool true)]] with
            | throws e =>
              exact Or.inl ⟨f, g, a, d, e, hx, rfl, h, hp, hf,
                task_deploy_throws ctx f g a d e hd hg h hp hf⟩
            | rejects e =>
              exact Or.inr (Or.inl ⟨f, g, a, d, e, hx, rfl, h, hp, hf,
                task_deploy_rejects ctx f g a d e hd hg h hp hf⟩)
            | pending =>
              exact Or.inr (Or.inr (Or.inl ⟨f, g, a, d, hx, rfl, h, hp, hf,
                task_deploy_pending ctx f g a d hd hg h hp hf⟩))
            | fulfils w =>
              exact Or.inr (Or.inr (Or.inr ⟨f, g, a, d, w, hx, rfl, h, hp, hf,
                task_deploy_fulfils ctx f g a d w hd hg h hp hf⟩))

/-- A call that has a behaviour is a call of a function. -/
theorem function_of_call (m : Member) (args : List Value) (b : Behaviour)
    (h : m.call args = some b) : ∃ g, m = .function g ∧ g args = b := by
  cases m with
  | function g => exact ⟨g, rfl, by simpa [Member.call] using h⟩
  | plain x => simp [Member.call] at h

/-- A `deploy` call that has a behaviour is a call of an exposed function. -/
theorem exposing_of_deployCall (ctx : Context) (args : List Value) (b : Behaviour)
    (h : ctx.deployCall args = some b) : ∃ f, ctx.deployments = .exposing f ∧ f args = b := by
  unfold Context.deployCall at h
  cases hd : ctx.deployments.deploy with
  | none => simp [hd] at h
  | some m =>
    rw [hd] at h
    obtain ⟨f, rfl, hf⟩ := function_of_call m args b h
    exact ⟨f, exposing_of_deploy_function ctx.deployments f hd, hf⟩

/-- The behaviour of the `deploy` call of a context that exposes `deploy`. -/
theorem deployCall_of_exposing (ctx : Context) (f : ExternalFunction) (args : List Value)
    (hx : ctx.deployments = .exposing f) : ctx.deployCall args = some (f args) := by
  simp [Context.deployCall, hx, Deployments.deploy, Member.call]

/-- Whenever `deploy` was called at all, both members of the context are
functions, account resolution had fulfilled with a value whose `deployer`
could be read, and the call is the only one, with the arguments of lines 19
to 24. -/
theorem deployCalls_of_mem (ctx : Context) (args : List Value)
    (hm : args ∈ deployCalls (task ctx).trace) :
    ∃ f g a d, ctx.deployments = .exposing f ∧ ctx.getNamedAccounts = .function g ∧
      g [] = .fulfils a ∧ a.getProperty "deployer" = some d ∧
      args = [.str "SimpleSwapper",
        .obj [("from", d), ("args", .arr [.num routerLiteral]), ("log", .bool true)]] ∧
      deployCalls (task ctx).trace = [args] := by
  rcases task_shape ctx with ⟨-, ht⟩ | ⟨x, -, ht⟩ | ⟨g, e, -, -, ht⟩ | ⟨g, e, -, -, ht⟩ |
    ⟨g, -, -, ht⟩ | ⟨g, a, -, -, -, ht⟩ | ⟨g, a, x, -, -, -, ht⟩ |
    ⟨f, g, a, d, e, hx, hg, h, hp, -, ht⟩ | ⟨f, g, a, d, e, hx, hg, h, hp, -, ht⟩ |
    ⟨f, g, a, d, hx, hg, h, hp, -, ht⟩ | ⟨f, g, a, d, w, hx, hg, h, hp, -, ht⟩ <;>
  rw [ht] at hm ⊢ <;>
  simp only [deployCalls, callsOf, List.not_mem_nil, reduceCtorEq, if_false, if_true,
    List.mem_singleton] at hm ⊢ <;>
  exact ⟨f, g, a, d, hx, hg, h, hp, hm, by rw [hm]⟩

/-- When both members of the context are functions and account resolution
fulfils with a value whose `deployer` can be read, `deploy` is called exactly
once, whatever it then does. -/
theorem deployCalls_of_deployer (ctx : Context) (f g : ExternalFunction) (a d : Value)
    (hx : ctx.deployments = .exposing f) (hg : ctx.getNamedAccounts = .function g)
    (h : g [] = .fulfils a) (hp : a.getProperty "deployer" = some d) :
    deployCalls (task ctx).trace = [[.str "SimpleSwapper",
        .obj [("from", d), ("args", .arr [.num routerLiteral]), ("log", .bool true)]]] := by
  have hd : ctx.deployments.deploy = some (.function f) := by rw [hx]; rfl
  cases hf : f [.str "SimpleSwapper",
        .obj [("from", d), ("args", .arr [.num routerLiteral]), ("log", .bool true)]] with
  | throws e => simp [task_deploy_throws ctx f g a d e hd hg h hp hf, deployCalls, callsOf]
  | rejects e => simp [task_deploy_rejects ctx f g a d e hd hg h hp hf, deployCalls, callsOf]
  | pending => simp [task_deploy_pending ctx f g a d hd hg h hp hf, deployCalls, callsOf]
  | fulfils w => simp [task_deploy_fulfils ctx f g a d w hd hg h hp hf, deployCalls, callsOf]

/-! ## The claims -/

/-- C1, as stated, fails: the context `emptyAccountsContext` has a
`getNamedAccounts` that resolves and a `deploy` that resolves on every call,
yet the destructuring of line 17 throws on `undefined` and no call of
`deploy` is recorded. -/
theorem c1_counterexample :
    ¬ ∀ ctx : Context,
      (∃ v, ctx.getNamedAccounts.call [] = some (.fulfils v)) →
      (∀ args, ∃ w, ctx.deployCall args = some (.fulfils w)) →
      ∃ rest, deployCalls (task ctx).trace = [.str "SimpleSwapper" :: rest] := by
  intro hall
  obtain ⟨rest, hr⟩ := hall emptyAccountsContext ⟨.undefined, rfl⟩ (fun _ => ⟨.undefined, rfl⟩)
  have h0 : deployCalls (task emptyAccountsContext).trace = [] := rfl
  rw [h0] at hr
  cases hr

/-- C1, amended: for every context whose `getNamedAccounts` resolves with a
value other than `undefined` and `null`, and whose `deploy` is a mock that
resolves on every call, the task records exactly one call of `deploy`, and
the first argument of that call is the string "SimpleSwapper". -/
theorem c1_one_deploy_call (ctx : Context) (v : Value)
    (hacc : ctx.getNamedAccounts.call [] = some (.fulfils v))
    (hu : v ≠ .undefined) (hn : v ≠ .null)
    (hdep : ∀ args, ∃ w, ctx.deployCall args = some (.fulfils w)) :
    ∃ rest, deployCalls (task ctx).trace = [.str "SimpleSwapper" :: rest] ∧
      (deployCalls (task ctx).trace).length = 1 := by
  obtain ⟨d, hp⟩ := getProperty_of_not_nullish v "deployer" hu hn
  obtain ⟨g, hg, h⟩ := function_of_call _ _ _ hacc
  obtain ⟨w, hw⟩ := hdep [.str "SimpleSwapper",
    .obj [("from", d), ("args", .arr [.num routerLiteral]), ("log", .bool true)]]
  obtain ⟨f, hx, hf⟩ := exposing_of_deployCall _ _ _ hw
  have hd : ctx.deployments.deploy = some (.function f) := by rw [hx]; rfl
  rw [task_deploy_fulfils ctx f g v d w hd hg h hp hf]
  exact ⟨_, rfl, rfl⟩

/-- C1 at `plainContext`: the accounts record is neither `undefined` nor
`null`, `deploy` resolves, and one call for "SimpleSwapper" is recorded. -/
theorem c1_one_deploy_call_witness :
    ∃ rest, deployCalls (task plainContext).trace = [.str "SimpleSwapper" :: rest] ∧
      (deployCalls (task plainContext).trace).length = 1 :=
  c1_one_deploy_call plainContext (.obj [("deployer", .str "0xabc")]) rfl
    (by intro h; cases h) (by intro h; cases h) (fun _ => ⟨.null, rfl⟩)

/-- C2: for every record that `getNamedAccounts` resolves with, every recorded
call of `deploy` has a name and an options object, and reading `from` of the
options gives exactly what reading `deployer` of the record gives: the entry
itself when the record has one, `undefined` when it has none. When the
context exposes a function `deploy`, that call is made, once, for every
behaviour of `deploy`. -/
theorem c2_from_is_deployer (ctx : Context) (fields : List (String × Value))
    (hacc : ctx.getNamedAccounts.call [] = some (.fulfils (.obj fields))) :
    (∀ args, args ∈ deployCalls (task ctx).trace →
      ∃ name opts, args = [name, opts] ∧
        opts.getProperty "from" = (Value.obj fields).getProperty "deployer" ∧
        ∀ d, lookupField "deployer" fields = some d → opts.getProperty "from" = some d) ∧
    (∀ f, ctx.deployments = .exposing f →
      ∃ name opts, deployCalls (task ctx).trace = [[name, opts]] ∧
        opts.getProperty "from" = (Value.obj fields).getProperty "deployer" ∧
        ∀ d, lookupField "deployer" fields = some d → opts.getProperty "from" = some d) := by
  obtain ⟨g, hg, h⟩ := function_of_call _ _ _ hacc
  have hp : (Value.obj fields).getProperty "deployer"
      = some ((lookupField "deployer" fields).getD .undefined) := rfl
  have hfrom : ∀ d, lookupField "deployer" fields = some d →
      (lookupField "deployer" fields).getD .undefined = d := by
    intro d hd
    rw [hd]
    rfl
  have key : ∀ f, ctx.deployments = .exposing f →
      ∃ name opts, deployCalls (task ctx).trace = [[name, opts]] ∧
        opts.getProperty "from" = (Value.obj fields).getProperty "deployer" ∧
        ∀ d, lookupField "deployer" fields = some d → opts.getProperty "from" = some d := by
    intro f hx
    refine ⟨_, _, deployCalls_of_deployer ctx f g _ _ hx hg h hp, ?_, ?_⟩
    · simp [Value.getProperty, lookupField]
    · intro d hd
      simp [Value.getProperty, lookupField, hd]
  refine ⟨?_, key⟩
  intro args hm
  obtain ⟨f, -, -, -, hx, -, -, -, -, hc⟩ := deployCalls_of_mem ctx args hm
  obtain ⟨name, opts, hcalls, h1, h2⟩ := key f hx
  rw [hcalls] at hc
  exact ⟨name, opts, (List.cons.inj hc).1.symm, h1, h2⟩

/-- C2 at `plainContext`, whose record has the deployer "0xabc". -/
theorem c2_from_is_deployer_witness :
    ∃ name opts, deployCalls (task plainContext).trace = [[name, opts]] ∧
      opts.getProperty "from" = (Value.obj [("deployer", .str "0xabc")]).getProperty "deployer" ∧
      ∀ d, lookupField "deployer" [("deployer", .str "0xabc")] = some d →
        opts.getProperty "from" = some d :=
  (c2_from_is_deployer plainContext [("deployer", .str "0xabc")] rfl).2 _ rfl

/-- C3: in every context, the options object of every recorded call of
`deploy` has an `args` field that is an array of length one, whose only
element is the Number the literal 0x1f98431c8ad98523631ae4a59f267346ea31f984
evaluates to; the right-hand side names neither the context nor the
deployer. -/
theorem c3_args_is_the_literal (ctx : Context) (args : List Value)
    (hm : args ∈ deployCalls (task ctx).trace) :
    ∃ name opts items, args = [name, opts] ∧ opts.getProperty "args" = some (.arr items) ∧
      items.length = 1 ∧
      items = [.num (roundToBinary64 0x1f98431c8ad98523631ae4a59f267346ea31f984)] := by
  obtain ⟨f, g, a, d, -, -, -, -, rfl, -⟩ := deployCalls_of_mem ctx args hm
  exact ⟨_, _, _, rfl, rfl, rfl, rfl⟩

/-- C3 at the one recorded call of `plainContext`. -/
theorem c3_args_is_the_literal_witness :
    plainContextCall ∈ deployCalls (task plainContext).trace ∧
    ∃ name opts items, plainContextCall = [name, opts] ∧
      opts.getProperty "args" = some (.arr items) ∧ items.length = 1 ∧
      items = [.num (roundToBinary64 0x1f98431c8ad98523631ae4a59f267346ea31f984)] :=
  ⟨List.Mem.head _, c3_args_is_the_literal plainContext plainContextCall (List.Mem.head _)⟩

/-- C4: in every context, every recorded call of `deploy` has exactly two
positional arguments, the contract name and one options object; the options
object has exactly the fields `from`, `args` and `log`; and `log` is the
boolean `true`. -/
theorem c4_call_shape (ctx : Context) (args : List Value)
    (hm : args ∈ deployCalls (task ctx).trace) :
    args.length = 2 ∧
    ∃ opts, args = [.str "SimpleSwapper", opts] ∧
      opts.keys = ["from", "args", "log"] ∧
      opts.getProperty "log" = some (.bool true) := by
  obtain ⟨f, g, a, d, -, -, -, -, rfl, -⟩ := deployCalls_of_mem ctx args hm
  exact ⟨rfl, _, rfl, rfl, rfl⟩

/-- C4 at the one recorded call of `plainContext`. -/
theorem c4_call_shape_witness :
    plainContextCall ∈ deployCalls (task plainContext).trace ∧
    plainContextCall.length = 2 ∧
    ∃ opts, plainContextCall = [.str "SimpleSwapper", opts] ∧
      opts.keys = ["from", "args", "log"] ∧
      opts.getProperty "log" = some (.bool true) :=
  ⟨List.Mem.head _, c4_call_shape plainContext plainContextCall (List.Mem.head _)⟩

/-- C5: the exported tag list is the one-element list ["SimpleSwapper"], and
its element is the string passed as contract name in every recorded call of
`deploy`, in every context. -/
theorem c5_tags :
    tags = ["SimpleSwapper"] ∧
    ∀ (ctx : Context) (args : List Value), args ∈ deployCalls (task ctx).trace →
      ∃ t, tags = [t] ∧ args.head? = some (.str t) := by
  refine ⟨rfl, ?_⟩
  intro ctx args hm
  obtain ⟨f, g, a, d, -, -, -, -, rfl, -⟩ := deployCalls_of_mem ctx args hm
  exact ⟨_, rfl, rfl⟩

/-- C5 at the one recorded call of `plainContext`. -/
theorem c5_tags_witness :
    plainContextCall ∈ deployCalls (task plainContext).trace ∧
    ∃ t, tags = [t] ∧ plainContextCall.head? = some (.str t) :=
  ⟨List.Mem.head _, c5_tags.2 plainContext plainContextCall (List.Mem.head _)⟩

/-- C6: for every error value `e`, when the call of `deploy` that the task
makes throws `e` or returns a promise that rejects with `e`, the promise of
the task is rejected with that same `e`, and the call is the only recorded
call of `deploy`. -/
theorem c6_deploy_failure_propagates (ctx : Context) (args : List Value) (e : Value)
    (hm : args ∈ deployCalls (task ctx).trace)
    (hf : ctx.deployCall args = some (.throws e) ∨ ctx.deployCall args = some (.rejects e)) :
    (task ctx).completion = .rejected e ∧ deployCalls (task ctx).trace = [args] := by
  obtain ⟨f, g, a, d, hx, hg, h, hp, rfl, hc⟩ := deployCalls_of_mem ctx args hm
  have hd : ctx.deployments.deploy = some (.function f) := by rw [hx]; rfl
  refine ⟨?_, hc⟩
  rw [deployCall_of_exposing ctx f _ hx] at hf
  rcases hf with hf | hf
  · rw [task_deploy_throws ctx f g a d e hd hg h hp (Option.some.inj hf)]
  · rw [task_deploy_rejects ctx f g a d e hd hg h hp (Option.some.inj hf)]

/-- C6 at `rejectingContext`, whose `deploy` rejects with "boom". -/
theorem c6_deploy_failure_propagates_witness :
    plainContextCall ∈ deployCalls (task rejectingContext).trace ∧
    (rejectingContext.deployCall plainContextCall = some (.throws (.str "boom")) ∨
      rejectingContext.deployCall plainContextCall = some (.rejects (.str "boom"))) ∧
    (task rejectingContext).completion = .rejected (.str "boom") ∧
    deployCalls (task rejectingContext).trace = [plainContextCall] :=
  ⟨List.Mem.head _, Or.inr rfl,
    c6_deploy_failure_propagates rejectingContext plainContextCall (.str "boom")
      (List.Mem.head _) (Or.inr rfl)⟩

/-- C7: in every context in which account resolution fulfils and the call of
`deploy` that the task makes fulfils, with whatever value `w`, the promise
of the task is fulfilled with `undefined`, and the last event of the run is
the resumption from the `await` of `deploy`; when that call never settles,
the task never settles either. -/
theorem c7_returns_undefined (ctx : Context) (accounts : Value) (args : List Value)
    (hacc : ctx.getNamedAccounts.call [] = some (.fulfils accounts))
    (hm : args ∈ deployCalls (task ctx).trace) :
    (∀ w, ctx.deployCall args = some (.fulfils w) →
      (task ctx).completion = .fulfilled .undefined ∧
      (task ctx).trace.getLast? = some (.resumed .deploy)) ∧
    (ctx.deployCall args = some .pending → (task ctx).completion = .pending) := by
  obtain ⟨f, g, a, d, hx, hg, h, hp, rfl, -⟩ := deployCalls_of_mem ctx args hm
  have hd : ctx.deployments.deploy = some (.function f) := by rw [hx]; rfl
  have ha : accounts = a := by
    rw [hg] at hacc
    have h2 : g [] = .fulfils accounts := Option.some.inj hacc
    rw [h] at h2
    exact (Behaviour.fulfils.inj h2).symm
  rw [deployCall_of_exposing ctx f _ hx]
  constructor
  · intro w hf
    rw [task_deploy_fulfils ctx f g a d w hd hg h hp (Option.some.inj hf)]
    exact ⟨rfl, rfl⟩
  · intro hf
    rw [task_deploy_pending ctx f g a d hd hg h hp (Option.some.inj hf)]

/-- C7 at `plainContext`, whose `deploy` fulfils with `null`. -/
theorem c7_returns_undefined_witness :
    plainContext.getNamedAccounts.call [] = some (.fulfils (.obj [("deployer", .str "0xabc")])) ∧
    plainContextCall ∈ deployCalls (task plainContext).trace ∧
    plainContext.deployCall plainContextCall = some (.fulfils .null) ∧
    (task plainContext).completion = .fulfilled .undefined ∧
    (task plainContext).trace.getLast? = some (.resumed .deploy) :=
  ⟨rfl, List.Mem.head _, rfl,
    (c7_returns_undefined plainContext (.obj [("deployer", .str "0xabc")]) plainContextCall
      rfl (List.Mem.head _)).1 .null rfl⟩

/-- C8, as stated, fails: the run of `plainContext` is successful and the task
suspends twice in it, not once. -/
theorem c8_counterexample :
    ¬ ∀ (ctx : Context) (v : Value), (task ctx).completion = .fulfilled v →
      (awaited (task ctx).trace).length = 1 := by
  intro hall
  have h := hall plainContext .undefined rfl
  have h2 : (awaited (task plainContext).trace).length = 2 := rfl
  omega

/-- C8, amended: the task has two suspension points. On every successful run
the awaited external operations are exactly two, first `getNamedAccounts`
and then `deploy`, so that the last one awaited is the deploy call. -/
theorem c8_two_suspension_points (ctx : Context) (v : Value)
    (hok : (task ctx).completion = .fulfilled v) :
    awaited (task ctx).trace = [.getNamedAccounts, .deploy] ∧
    (awaited (task ctx).trace).length = 2 ∧
    (awaited (task ctx).trace).getLast? = some .deploy := by
  rcases task_shape ctx with ⟨-, ht⟩ | ⟨x, -, ht⟩ | ⟨g, e, -, -, ht⟩ | ⟨g, e, -, -, ht⟩ |
    ⟨g, -, -, ht⟩ | ⟨g, a, -, -, -, ht⟩ | ⟨g, a, x, -, -, -, ht⟩ |
    ⟨f, g, a, d, e, -, -, -, -, -, ht⟩ | ⟨f, g, a, d, e, -, -, -, -, -, ht⟩ |
    ⟨f, g, a, d, -, -, -, -, -, ht⟩ | ⟨f, g, a, d, w, -, -, -, -, -, ht⟩ <;>
  rw [ht] at hok ⊢ <;> first | exact ⟨rfl, rfl, rfl⟩ | cases hok

/-- C8 at `plainContext`, whose run is successful. -/
theorem c8_two_suspension_points_witness :
    (task plainContext).completion = .fulfilled .undefined ∧
    awaited (task plainContext).trace = [.getNamedAccounts, .deploy] ∧
    (awaited (task plainContext).trace).length = 2 ∧
    (awaited (task plainContext).trace).getLast? = some .deploy :=
  ⟨rfl, c8_two_suspension_points plainContext .undefined rfl⟩

/-- C9, evaluated: the Number passed to the constructor is not the integer
written in the source. The literal evaluates to `0x1f98431c8ad985 * 2^104`,
the binary64 nearest to it (a 53-bit significand, less than half a unit in
the last place away), which is 180374273401342271088640923893218502644791771136;
the low 104 bits of the address are gone, and the neighbouring address
ending in `f985` gives the same Number. That Number is what `deploy`
receives in `plainContext`. -/
theorem c9_literal_is_rounded :
    routerLiteral = 0x1f98431c8ad985 * 2 ^ 104 ∧
    2 ^ 52 ≤ 0x1f98431c8ad985 ∧ 0x1f98431c8ad985 < 2 ^ 53 ∧
    0x1f98431c8ad98523631ae4a59f267346ea31f984 - routerLiteral < 2 ^ 103 ∧
    routerLiteral = 180374273401342271088640923893218502644791771136 ∧
    routerLiteral ≠ 0x1f98431c8ad98523631ae4a59f267346ea31f984 ∧
    roundToBinary64 0x1f98431c8ad98523631ae4a59f267346ea31f985 = routerLiteral ∧
    deployCalls (task plainContext).trace =
      [[.str "SimpleSwapper",
        .obj [("from", .str "0xabc"),
          ("args", .arr [.num 180374273401342271088640923893218502644791771136]),
          ("log", .bool true)]]] := by
  have hv : routerLiteral = 180374273401342271088640923893218502644791771136 := by decide
  refine ⟨by decide, by decide, by decide, by decide, hv, by decide, by decide, ?_⟩
  rw [deployCalls_of_deployer plainContext _ _ (.obj [("deployer", .str "0xabc")])
    (.str "0xabc") rfl rfl rfl rfl, hv]
  rfl

/-- C10, as stated, fails: `noDeploymentsContext` has a working
`getNamedAccounts`, yet the destructuring of line 14 throws before line 17
and the run records no call of `getNamedAccounts`. -/
theorem c10_counterexample :
    ¬ ∀ ctx : Context, callsOf .getNamedAccounts (task ctx).trace = [[]] := by
  intro hall
  have h := hall noDeploymentsContext
  have h0 : callsOf .getNamedAccounts (task noDeploymentsContext).trace = [] := rfl
  rw [h0] at h
  cases h

/-- C10, amended: in every context whose `getNamedAccounts` is a function and
whose `deployments` is neither `undefined` nor `null`, the run starts with
the one call of `getNamedAccounts`, made with no arguments; any call of
`deploy` comes later in the trace; and for every error value `e`, when
`getNamedAccounts` throws `e` or its promise rejects with `e`, no call of
`deploy` is recorded and the promise of the task is rejected with that same
`e`. -/
theorem c10_accounts_first (ctx : Context) (g : ExternalFunction)
    (hg : ctx.getNamedAccounts = .function g)
    (hu : ctx.deployments ≠ .plain .undefined) (hn : ctx.deployments ≠ .plain .null) :
    (∃ rest, (task ctx).trace = .called .getNamedAccounts [] :: rest) ∧
    callsOf .getNamedAccounts (task ctx).trace = [[]] ∧
    (∀ pre args post, (task ctx).trace = pre ++ .called .deploy args :: post →
      ∃ pre1, pre = .called .getNamedAccounts [] :: pre1) ∧
    (∀ e, (g [] = .throws e ∨ g [] = .rejects e) →
      deployCalls (task ctx).trace = [] ∧ (task ctx).completion = .rejected e) := by
  obtain ⟨m, hd⟩ := deploy_read_of_not_nullish ctx.deployments hu hn
  have hshape : ∃ rest, (task ctx).trace = .called .getNamedAccounts [] :: rest ∧
      callsOf .getNamedAccounts rest = [] := by
    rcases task_shape ctx with ⟨hnone, -⟩ | ⟨x, hx, -⟩ | ⟨g, e, -, -, ht⟩ | ⟨g, e, -, -, ht⟩ |
      ⟨g, -, -, ht⟩ | ⟨g, a, -, -, -, ht⟩ | ⟨g, a, x, -, -, -, ht⟩ |
      ⟨f, g, a, d, e, -, -, -, -, -, ht⟩ | ⟨f, g, a, d, e, -, -, -, -, -, ht⟩ |
      ⟨f, g, a, d, -, -, -, -, -, ht⟩ | ⟨f, g, a, d, w, -, -, -, -, -, ht⟩
    · rw [hd] at hnone
      cases hnone
    · rw [hg] at hx
      cases hx
    all_goals
      rw [ht]
      exact ⟨_, rfl, by simp [callsOf]⟩
  obtain ⟨rest, hrest, hnomore⟩ := hshape
  refine ⟨⟨rest, hrest⟩, ?_, ?_, ?_⟩
  · rw [hrest]
    simp [callsOf, hnomore]
  · intro pre args post hsplit
    rw [hrest] at hsplit
    cases pre with
    | nil => simp at hsplit
    | cons p pre1 =>
      simp only [List.cons_append, List.cons.injEq] at hsplit
      exact ⟨pre1, by rw [hsplit.1]⟩
  · intro e he
    rcases he with h | h
    · rw [task_accounts_throws ctx m g e hd hg h]
      exact ⟨rfl, rfl⟩
    · rw [task_accounts_rejects ctx m g e hd hg h]
      exact ⟨rfl, rfl⟩

/-- C10 at `throwingAccountsContext`, whose `getNamedAccounts` is a function
that throws "boom" and whose `deployments` exposes `deploy`. -/
theorem c10_accounts_first_witness :
    callsOf .getNamedAccounts (task throwingAccountsContext).trace = [[]] ∧
    deployCalls (task throwingAccountsContext).trace = [] ∧
    (task throwingAccountsContext).completion = .rejected (.str "boom") :=
  have h := c10_accounts_first throwingAccountsContext (fun _ => .throws (.str "boom")) rfl
    (by intro h; cases h) (by intro h; cases h)
  ⟨h.2.1, h.2.2.2 (.str "boom") (Or.inl rfl)⟩

end SimpleSwapper
